import Mathlib

/-!
Verification of the perimeter placement and compositing engine of the
FotoRamkaSticker repository.

The definitions below are a shallow embedding of the Python source:
  - src/sticker_frame_gui.py   (class StickerFrameGenerator)
  - src/algorithms/base_algorithm.py  (class BaseAlgorithm: textually the same
    zone / position / validity code as the GUI class)
  - src/algorithms/corner_algorithm.py (class CornerAlgorithm)
  - src/frame_config.py        (FrameConfig, StickerConfig, BorderSide)

Python floats are modelled as exact fractions (`Frac`, a pair of integers);
every stochastic decision of the Python code reads the single global
`random` stream, modelled here as an explicit list of fraction draws
consumed in program order.  `math.sqrt` (used only inside the gradient
density weight, which only modulates a skip probability) is passed in as an
explicit function parameter `sqrtA`.  Image pixel operations (resize,
rotate, alpha compositing) do not influence the placed-sticker list and are
not modelled; `generate` returns the list of accepted `StickerConfig`
records (`none` for the Python `return None` outcome).
-/

namespace FotoRamka

/-- Exact fraction `num / den`, the model of a Python float value.  All
streams and literals used in this development have positive denominators. -/
structure Frac where
  num : Int
  den : Int
deriving DecidableEq

/-- Embed an integer as a fraction. -/
def Frac.ofInt (n : Int) : Frac := ⟨n, 1⟩

/-- Fraction addition. -/
def Frac.add (a b : Frac) : Frac := ⟨a.num * b.den + b.num * a.den, a.den * b.den⟩

/-- Fraction subtraction. -/
def Frac.sub (a b : Frac) : Frac := ⟨a.num * b.den - b.num * a.den, a.den * b.den⟩

/-- Fraction multiplication. -/
def Frac.mul (a b : Frac) : Frac := ⟨a.num * b.num, a.den * b.den⟩

/-- Fraction division. -/
def Frac.div (a b : Frac) : Frac := ⟨a.num * b.den, a.den * b.num⟩

/-- Strict order on fractions (the intended reading for positive
denominators, which is the only way fractions are built here). -/
def Frac.lt (a b : Frac) : Prop := a.num * b.den < b.num * a.den

instance : Add Frac := ⟨Frac.add⟩

instance : Sub Frac := ⟨Frac.sub⟩

instance : Mul Frac := ⟨Frac.mul⟩

instance : Div Frac := ⟨Frac.div⟩

instance : LT Frac := ⟨Frac.lt⟩

instance (a b : Frac) : Decidable (a < b) :=
  inferInstanceAs (Decidable (a.num * b.den < b.num * a.den))

/-- Python `min` of two floats. -/
def Frac.fmin (a b : Frac) : Frac := if a < b then a else b

/-- Python `max` of two floats. -/
def Frac.fmax (a b : Frac) : Frac := if a < b then b else a

/-- Python `int(...)` applied to a float: truncation toward zero. -/
def pyTrunc (q : Frac) : Int := Int.tdiv q.num q.den

/-- The global random stream: the sequence of uniform draws in `[0, 1)`
produced by Python's (single, module global) random generator, consumed in
program order. -/
def Rand : Type := List Frac

/-- Pull the next uniform draw off the stream (`random.random()`). -/
def nextRand (s : Rand) : Frac × Rand :=
  match s with
  | [] => (Frac.ofInt 0, [])
  | u :: rest => (u, rest)

/-- `random.randint(a, b)`: a uniform integer in `[a, b]`, derived from one
underlying uniform draw. -/
def randint (a b : Int) (s : Rand) : Int × Rand :=
  let u := nextRand s
  (a + pyTrunc (u.1 * Frac.ofInt (b - a + 1)), u.2)

/-- `random.choice(xs)`: a uniformly chosen element, derived from one
underlying uniform draw (`d` is returned for the empty list, on which the
Python call would raise). -/
def choiceD {α : Type} (xs : List α) (d : α) (s : Rand) : α × Rand :=
  let u := nextRand s
  (xs.getD (pyTrunc (u.1 * Frac.ofInt (xs.length : Int))).toNat d, u.2)

/-- `random.uniform(a, b) = a + (b - a) * random.random()`. -/
def pyUniform (a b : Frac) (s : Rand) : Frac × Rand :=
  let u := nextRand s
  (a + (b - a) * u.1, u.2)

/-- Python `range(a, b, step)` for a positive step. -/
def pyRange (a b step : Int) : List Int :=
  (List.range ((Int.fdiv (b - a + step - 1) step).toNat)).map (fun i => a + step * (i : Int))

/-- Run a draw-consuming body over each element of a list, threading the
random stream left to right (a Python `for` loop that appends one result per
iteration). -/
def mapRand {α β : Type} (f : α → Rand → β × Rand) : List α → Rand → List β × Rand
  | [], s => ([], s)
  | a :: as, s =>
    let b := f a s
    let bs := mapRand f as b.2
    (b.1 :: bs.1, bs.2)

/-- Run a draw-consuming body `n` times, threading the random stream
(a Python `for i in range(n)` loop collecting one result per iteration). -/
def repRand {α : Type} (f : Rand → α × Rand) : Nat → Rand → List α × Rand
  | 0, s => ([], s)
  | Nat.succ n, s =>
    let a := f s
    let as := repRand f n a.2
    (a.1 :: as.1, as.2)

/-- An axis-aligned rectangle, the Python 4-tuple `(x1, y1, x2, y2)` =
(left, top, right, bottom). -/
structure Rect where
  left : Int
  top : Int
  right : Int
  bottom : Int
deriving DecidableEq

/-- `_rectangles_overlap` (base_algorithm.py lines 142-146 and
sticker_frame_gui.py lines 250-254):
`not (r1[2] <= r2[0] or r1[0] >= r2[2] or r1[3] <= r2[1] or r1[1] >= r2[3])`. -/
def rectangles_overlap (r1 r2 : Rect) : Bool :=
  !(r1.right ≤ r2.left || r1.left ≥ r2.right || r1.bottom ≤ r2.top || r1.top ≥ r2.bottom)

/-- `BorderSide` enumeration (frame_config.py). -/
inductive BorderSide where
  | ALL
  | TOP
  | BOTTOM
  | LEFT
  | RIGHT
  | TOP_BOTTOM
  | LEFT_RIGHT
  | CORNERS
deriving DecidableEq

/-- The set of active side markers produced by `_get_active_sides`
(a Python set drawn from {top, bottom, left, right, corners}). -/
structure ActiveSides where
  top : Bool
  bottom : Bool
  left : Bool
  right : Bool
  corners : Bool
deriving DecidableEq

/-- `_get_active_sides` (sticker_frame_gui.py lines 175-196). -/
def get_active_sides (bs : BorderSide) : ActiveSides :=
  match bs with
  | BorderSide.ALL => ⟨true, true, true, true, false⟩
  | BorderSide.TOP => ⟨true, false, false, false, false⟩
  | BorderSide.BOTTOM => ⟨false, true, false, false, false⟩
  | BorderSide.LEFT => ⟨false, false, true, false, false⟩
  | BorderSide.RIGHT => ⟨false, false, false, true, false⟩
  | BorderSide.TOP_BOTTOM => ⟨true, true, false, false, false⟩
  | BorderSide.LEFT_RIGHT => ⟨false, false, true, true, false⟩
  | BorderSide.CORNERS => ⟨false, false, false, false, true⟩

/-- `StickerConfig` (frame_config.py): one accepted placement record. -/
structure StickerConfig where
  path : String
  size : Int × Int
  position : Int × Int
  rotation : Frac
  opacity : Frac
deriving DecidableEq

/-- `FrameConfig` (frame_config.py / sticker_frame_gui.py).  `template_size`
is an `Option` because the Python code tests its truthiness (`None` or unset
means no template).  Fields that do not influence the modelled core
(`output_size`, colors, preview flags) are omitted. -/
structure FrameConfig where
  template_size : Option (Int × Int)
  sticker_dir : String
  sticker_density : Frac
  min_sticker_size : Int
  max_sticker_size : Int
  border_width : Int
  border_overlap : Int
  overlap_allowed : Bool
  random_rotation : Bool
  random_opacity : Bool
  min_opacity : Frac
  max_opacity : Frac
  border_sides : BorderSide
  gradient_density : Bool
  gradient_type : String

/-- The axis-aligned footprint of a sticker:
`(x, y, x + w, y + h)` as built in `_is_position_valid`. -/
def footprint_rect (sc : StickerConfig) : Rect :=
  ⟨sc.position.1, sc.position.2, sc.position.1 + sc.size.1, sc.position.2 + sc.size.2⟩

/-- `_generate_perimeter_positions` (sticker_frame_gui.py lines 132-173;
identical to `BaseAlgorithm.generate_positions`).  Returns the new
`perimeter_positions` (the previous value `old` when the template is unset,
matching the early `return`) together with the rest of the stream. -/
def generate_perimeter_positions (cfg : FrameConfig) (old : List (Int × Int)) (s : Rand) :
    List (Int × Int) × Rand :=
  match cfg.template_size with
  | none => (old, s)
  | some (tw, th) =>
    let border := cfg.border_width
    let overlap := cfg.border_overlap
    let step := max 5 (Int.fdiv border 10)
    let sides := get_active_sides cfg.border_sides
    let topPs :=
      if sides.top then
        mapRand (fun x t =>
          let y := randint (-overlap) (Int.fdiv border 2) t
          ((x, y.1), y.2)) (pyRange (-overlap) (tw + overlap) step) s
      else ([], s)
    let botPs :=
      if sides.bottom then
        mapRand (fun x t =>
          let y := randint 1 (Int.fdiv border 2 + overlap) t
          ((x, th - y.1), y.2)) (pyRange (-overlap) (tw + overlap) step) topPs.2
      else ([], topPs.2)
    let leftPs :=
      if sides.left then
        mapRand (fun y t =>
          let x := randint (-overlap) (Int.fdiv border 2) t
          ((x.1, y), x.2)) (pyRange border (th - border) step) botPs.2
      else ([], botPs.2)
    let rightPs :=
      if sides.right then
        mapRand (fun y t =>
          let x := randint 1 (Int.fdiv border 2 + overlap) t
          ((tw - x.1, y), x.2)) (pyRange border (th - border) step) leftPs.2
      else ([], leftPs.2)
    let cornerPs :=
      if sides.corners then
        (pyRange (-overlap) (border + overlap) step).flatMap (fun x =>
          (pyRange (-overlap) (border + overlap) step).flatMap (fun y =>
            [(x, y), (tw - x - 1, y), (x, th - y - 1), (tw - x - 1, th - y - 1)]))
      else []
    (topPs.1 ++ botPs.1 ++ leftPs.1 ++ rightPs.1 ++ cornerPs, rightPs.2)

/-- `_calculate_sticker_zone` (sticker_frame_gui.py lines 111-130; identical
to `BaseAlgorithm.calculate_sticker_zone`).  Returns the new
`(inner_rect, perimeter_positions)` state (unchanged on an unset template,
matching the early `return`); the position generation it triggers consumes
random draws. -/
def calculate_sticker_zone (cfg : FrameConfig) (oldRect : Option Rect)
    (oldPos : List (Int × Int)) (s : Rand) :
    Option Rect × List (Int × Int) × Rand :=
  match cfg.template_size with
  | none => (oldRect, oldPos, s)
  | some (tw, th) =>
    let border := cfg.border_width
    let inner_w := tw - 2 * border
    let inner_h := th - 2 * border
    let ps := generate_perimeter_positions cfg oldPos s
    if inner_w ≤ 0 ∨ inner_h ≤ 0 then
      let iw := max 10 (tw - 20)
      let ih := max 10 (th - 20)
      let fallback := Int.fdiv (min (tw - iw) (th - ih)) 2
      (some ⟨fallback, fallback, fallback + iw, fallback + ih⟩, ps.1, ps.2)
    else
      (some ⟨border, border, border + inner_w, border + inner_h⟩, ps.1, ps.2)

/-- `_get_gradient_density` (sticker_frame_gui.py lines 198-214).  `sqrtA`
models `math.sqrt`; it is applied to the exact integer squared distances.
The (unreachable inside `generate`) unset-template case returns 1. -/
def get_gradient_density (cfg : FrameConfig) (sqrtA : Frac → Frac)
    (pos : Int × Int) (s : Rand) : Frac × Rand :=
  if cfg.gradient_density = false then (Frac.ofInt 1, s)
  else
    match cfg.template_size with
    | none => (Frac.ofInt 1, s)
    | some (tw, th) =>
      if cfg.gradient_type = "linear" then
        let cx := Int.fdiv tw 2
        let cy := Int.fdiv th 2
        let dist := sqrtA (Frac.ofInt ((pos.1 - cx) * (pos.1 - cx) + (pos.2 - cy) * (pos.2 - cy)))
        let maxDist := sqrtA (Frac.ofInt (cx * cx + cy * cy))
        (Frac.fmax (Frac.mk 3 10) (Frac.fmin (Frac.ofInt 1) (dist / maxDist)), s)
      else
        pyUniform (Frac.mk 3 10) (Frac.ofInt 1) s

/-- `_is_position_valid` (sticker_frame_gui.py lines 216-248; identical to
`BaseAlgorithm.is_position_valid`).  The unset-template case with a set
inner rectangle (on which Python would raise, and which the class lifecycle
never produces) is mapped to `false`.  The third branch is the source's
nested pair of `if`s, written as one conjunction. -/
def is_position_valid (cfg : FrameConfig) (inner_rect : Option Rect)
    (sticker : StickerConfig) (placed : List StickerConfig) : Bool :=
  match inner_rect with
  | none => true
  | some ir =>
    match cfg.template_size with
    | none => false
    | some (tw, th) =>
      if sticker.position.1 + sticker.size.1 < -cfg.border_overlap ∨
         sticker.position.1 > tw + cfg.border_overlap then false
      else if sticker.position.2 + sticker.size.2 < -cfg.border_overlap ∨
              sticker.position.2 > th + cfg.border_overlap then false
      else if rectangles_overlap (footprint_rect sticker) ir = true ∧
              (sticker.position.1 ≥ ir.left ∧
               sticker.position.1 + sticker.size.1 ≤ ir.right ∧
               sticker.position.2 ≥ ir.top ∧
               sticker.position.2 + sticker.size.2 ≤ ir.bottom) then false
      else if cfg.overlap_allowed = false ∧
              placed.any (fun p => rectangles_overlap (footprint_rect sticker) (footprint_rect p))
                = true then false
      else true

/-- The inner position search of `generate` (sticker_frame_gui.py lines
328-363): up to `n = 10` tries per attempt; each try breaks out on an empty
candidate list, draws one candidate, applies the gradient-density skip
(`random.random() > effective_density`), and on a valid position appends the
sticker and reports success.  Returns `(found, placed, stream)`. -/
def try_place (cfg : FrameConfig) (inner_rect : Option Rect) (positions : List (Int × Int))
    (sqrtA : Frac → Frac) (width height : Int) (rotation opacity : Frac) :
    Nat → List StickerConfig → Rand → Bool × List StickerConfig × Rand
  | 0, placed, s => (false, placed, s)
  | Nat.succ n, placed, s =>
    if positions.isEmpty then (false, placed, s)
    else
      let c := choiceD positions (0, 0) s
      let g := get_gradient_density cfg sqrtA c.1 c.2
      let u := nextRand g.2
      if cfg.sticker_density * g.1 < u.1 then
        try_place cfg inner_rect positions sqrtA width height rotation opacity n placed u.2
      else
        if is_position_valid cfg inner_rect ⟨"", (width, height), c.1, rotation, opacity⟩ placed
        then (true, placed ++ [⟨"", (width, height), c.1, rotation, opacity⟩], u.2)
        else try_place cfg inner_rect positions sqrtA width height rotation opacity n placed u.2

/-- The outer attempt loop of `generate` (sticker_frame_gui.py lines
297-367): per attempt a random source image, size, constrained edge,
rotation and opacity are drawn, then the inner search runs; the loop breaks
when no position was found while at least one sticker is already placed. -/
def generate_loop (cfg : FrameConfig) (loaded : List (Int × Int)) (inner_rect : Option Rect)
    (positions : List (Int × Int)) (sqrtA : Frac → Frac) :
    Nat → List StickerConfig → Rand → List StickerConfig × Rand
  | 0, placed, s => (placed, s)
  | Nat.succ n, placed, s =>
    let img := choiceD loaded (0, 0) s
    let sz := randint cfg.min_sticker_size cfg.max_sticker_size img.2
    let aspect := Frac.ofInt img.1.1 / Frac.ofInt img.1.2
    let pickW := choiceD [true, false] true sz.2
    let width := if pickW.1 then sz.1 else pyTrunc (Frac.ofInt sz.1 * aspect)
    let height := if pickW.1 then pyTrunc (Frac.ofInt sz.1 / aspect) else sz.1
    let rot := if cfg.random_rotation then pyUniform (Frac.ofInt (-180)) (Frac.ofInt 180) pickW.2
               else (Frac.ofInt 0, pickW.2)
    let op := if cfg.random_opacity then pyUniform cfg.min_opacity cfg.max_opacity rot.2
              else (Frac.ofInt 1, rot.2)
    let t := try_place cfg inner_rect positions sqrtA width height rot.1 op.1 10 placed op.2
    if t.1 = false ∧ 0 < t.2.1.length then (t.2.1, t.2.2)
    else generate_loop cfg loaded inner_rect positions sqrtA n t.2.1 t.2.2

/-- `generate` (sticker_frame_gui.py lines 280-373).  `loaded` carries the
pixel sizes of the loaded source images (the only image data the placement
logic reads); `inner_rect` and `positions` are the object state set up by
`generator_init`.  Returns `none` exactly on the Python `return None`
(no loaded stickers or unset template), otherwise the final placed list.
The canvas compositing and the final resize do not affect that list and are
not modelled. -/
def generate (cfg : FrameConfig) (loaded : List (Int × Int)) (inner_rect : Option Rect)
    (positions : List (Int × Int)) (sqrtA : Frac → Frac) (max_attempts : Nat) (s : Rand) :
    Option (List StickerConfig) :=
  if loaded.isEmpty ∨ cfg.template_size = none then none
  else
    let ps := if positions.isEmpty then generate_perimeter_positions cfg positions s
              else (positions, s)
    some (generate_loop cfg loaded inner_rect ps.1 sqrtA max_attempts [] ps.2).1

/-- The generator state established by `StickerFrameGenerator.__init__`
(sticker_frame_gui.py lines 85-94). -/
structure GenInit where
  loaded : List (Int × Int)
  inner_rect : Option Rect
  positions : List (Int × Int)
  rand : Rand

/-- `StickerFrameGenerator.__init__`: with a non-empty sticker directory the
images are loaded (`dirImages` are the pixel sizes found there) and the
sticker zone is calculated; otherwise the state stays empty. -/
def generator_init (cfg : FrameConfig) (dirImages : List (Int × Int)) (s : Rand) : GenInit :=
  if cfg.sticker_dir = "" then ⟨[], none, [], s⟩
  else
    let z := calculate_sticker_zone cfg none [] s
    ⟨dirImages, z.1, z.2.1, z.2.2⟩

/-- A full run of the class: `__init__` followed by `generate`. -/
def run_generator (cfg : FrameConfig) (dirImages : List (Int × Int)) (sqrtA : Frac → Frac)
    (max_attempts : Nat) (s : Rand) : Option (List StickerConfig) :=
  let gi := generator_init cfg dirImages s
  generate cfg gi.loaded gi.inner_rect gi.positions sqrtA max_attempts gi.rand

/-- One iteration of the corner loop of `CornerAlgorithm.generate_positions`
(corner_algorithm.py lines 37-51): a squared uniform distance fraction, the
offset `int(corner_size * distance)` (computed once for x and once for y,
with the same value), and a uniformly chosen corner. -/
def corner_pick (tw th corner_size : Int) (s : Rand) : (Int × Int) × Rand :=
  let d := pyUniform (Frac.ofInt 0) (Frac.ofInt 1) s
  let distance := d.1 * d.1
  let x_offset := pyTrunc (Frac.ofInt corner_size * distance)
  let y_offset := pyTrunc (Frac.ofInt corner_size * distance)
  let corner := choiceD [ "tl", "tr", "bl", "br" ] "tl" d.2
  (if corner.1 = "tl" then (-x_offset, -y_offset)
   else if corner.1 = "tr" then (tw + x_offset, -y_offset)
   else if corner.1 = "bl" then (-x_offset, th + y_offset)
   else (tw + x_offset, th + y_offset), corner.2)

/-- The `top` edge case of one side round of `CornerAlgorithm`
(corner_algorithm.py lines 55-58): a 25% roll (drawn only when the side is
active) and, on success, one position hugging the top edge. -/
def corner_side_top (sides : ActiveSides) (tw border overlap : Int) (s : Rand) :
    List (Int × Int) × Rand :=
  if sides.top then
    let u := nextRand s
    if u.1 < Frac.mk 1 4 then
      let x := randint (-overlap) (tw + overlap) u.2
      let y := randint (-overlap) (Int.fdiv border 4) x.2
      ([(x.1, y.1)], y.2)
    else ([], u.2)
  else ([], s)

/-- The `bottom` edge case (corner_algorithm.py lines 60-63). -/
def corner_side_bottom (sides : ActiveSides) (tw th border overlap : Int) (s : Rand) :
    List (Int × Int) × Rand :=
  if sides.bottom then
    let u := nextRand s
    if u.1 < Frac.mk 1 4 then
      let x := randint (-overlap) (tw + overlap) u.2
      let y := randint 1 (Int.fdiv border 4 + overlap) x.2
      ([(x.1, th - y.1)], y.2)
    else ([], u.2)
  else ([], s)

/-- The `left` edge case (corner_algorithm.py lines 65-68). -/
def corner_side_left (sides : ActiveSides) (th border overlap : Int) (s : Rand) :
    List (Int × Int) × Rand :=
  if sides.left then
    let u := nextRand s
    if u.1 < Frac.mk 1 4 then
      let x := randint (-overlap) (Int.fdiv border 4) u.2
      let y := randint border (th - border) x.2
      ([(x.1, y.1)], y.2)
    else ([], u.2)
  else ([], s)

/-- The `right` edge case (corner_algorithm.py lines 70-73). -/
def corner_side_right (sides : ActiveSides) (tw th border overlap : Int) (s : Rand) :
    List (Int × Int) × Rand :=
  if sides.right then
    let u := nextRand s
    if u.1 < Frac.mk 1 4 then
      let x := randint 1 (Int.fdiv border 4 + overlap) u.2
      let y := randint border (th - border) x.2
      ([(tw - x.1, y.1)], y.2)
    else ([], u.2)
  else ([], s)

/-- One iteration of the side loop of `CornerAlgorithm.generate_positions`
(corner_algorithm.py lines 54-73): the four edges are rolled in order, each
emitting at most one position. -/
def corner_side_round (sides : ActiveSides) (tw th border overlap : Int) (s : Rand) :
    List (Int × Int) × Rand :=
  let p1 := corner_side_top sides tw border overlap s
  let p2 := corner_side_bottom sides tw th border overlap p1.2
  let p3 := corner_side_left sides th border overlap p2.2
  let p4 := corner_side_right sides tw th border overlap p3.2
  (p1.1 ++ p2.1 ++ p3.1 ++ p4.1, p4.2)

/-- `CornerAlgorithm.generate_positions` (corner_algorithm.py lines 17-75).
`total_positions = 200`, `corner_positions = int(200 * 0.7) = 140`,
`side_positions = 60`.  Returns the new `perimeter_positions` (unchanged on
an unset template, matching the early `return`). -/
def corner_generate_positions (cfg : FrameConfig) (old : List (Int × Int)) (s : Rand) :
    List (Int × Int) × Rand :=
  match cfg.template_size with
  | none => (old, s)
  | some (tw, th) =>
    let border := cfg.border_width
    let overlap := cfg.border_overlap
    let sides := get_active_sides cfg.border_sides
    let corner_positions : Nat := 140
    let side_positions : Nat := 200 - corner_positions
    let corner_size := border + overlap
    let cornerPs := repRand (corner_pick tw th corner_size) corner_positions s
    let sidePs := repRand (corner_side_round sides tw th border overlap) side_positions cornerPs.2
    (cornerPs.1 ++ sidePs.1.flatten, sidePs.2)

/-- The number of active plain edges (corner marker excluded): each side
round of `CornerAlgorithm` emits at most this many positions. -/
def active_edge_count (sides : ActiveSides) : Nat :=
  (if sides.top then 1 else 0) + (if sides.bottom then 1 else 0) +
  (if sides.left then 1 else 0) + (if sides.right then 1 else 0)

/-- Pairwise non-overlap of the footprints along a placed list. -/
def NonOverlapList (l : List StickerConfig) : Prop :=
  l.Pairwise (fun a b => rectangles_overlap (footprint_rect a) (footprint_rect b) = false)

/-- Concrete configuration used by the concrete runs below: a 100 x 100
template, border 50, overlap 0, density 1, 40-pixel stickers, no rotation or
opacity randomness, top side only. -/
def cfgA : FrameConfig :=
  ⟨some (100, 100), "stickers", Frac.ofInt 1, 40, 40, 50, 0, true, false, false,
   Frac.mk 7 10, Frac.ofInt 1, BorderSide.TOP, false, "linear"⟩

/-- `cfgA` with mutual overlap disallowed. -/
def cfgB : FrameConfig := { cfgA with overlap_allowed := false }

/-- `cfgA` with border 20 (used for the corner algorithm runs). -/
def cfgC : FrameConfig := { cfgA with border_width := 20 }

/-- A stream for `cfgA`: 20 zero draws feed the `__init__` position
generation (the top row gets y = 0 at x = 0, 5, ..., 95); the attempt then
picks image 0, size 40, width-constrained scaling, candidate index 19
(x = 95) and passes the density roll. -/
def sA : Rand :=
  List.replicate 20 (Frac.ofInt 0) ++
    [ Frac.ofInt 0, Frac.ofInt 0, Frac.ofInt 0, Frac.mk 19 20, Frac.ofInt 0 ]

/-- A stream for `cfgB`: as `sA` but with two attempts, placing candidates
0 (x = 0) and 10 (x = 50). -/
def sB : Rand :=
  List.replicate 20 (Frac.ofInt 0) ++
    [ Frac.ofInt 0, Frac.ofInt 0, Frac.ofInt 0, Frac.ofInt 0, Frac.ofInt 0,
      Frac.ofInt 0, Frac.ofInt 0, Frac.ofInt 0, Frac.mk 1 2, Frac.ofInt 0 ]

/-- A stream of one-half draws for the corner algorithm: every corner offset
becomes 5 and every 25% edge roll fails. -/
def sC : Rand := List.replicate 340 (Frac.mk 1 2)

theorem Frac.mul_num (a b : Frac) : (a * b).num = a.num * b.num := rfl

theorem Frac.mul_den (a b : Frac) : (a * b).den = a.den * b.den := rfl

/-- The overlap test returns `false` exactly on the four-way disjointness
disjunction of the source expression. -/
theorem rectangles_overlap_false_iff (r1 r2 : Rect) :
    rectangles_overlap r1 r2 = false ↔
      (r1.right ≤ r2.left ∨ r1.left ≥ r2.right ∨ r1.bottom ≤ r2.top ∨ r1.top ≥ r2.bottom) := by
  simp [rectangles_overlap]
  omega

/-- The overlap test is symmetric in its two rectangles. -/
theorem rectangles_overlap_comm (r1 r2 : Rect) :
    rectangles_overlap r1 r2 = rectangles_overlap r2 r1 := by
  rcases hab : rectangles_overlap r1 r2 <;> rcases hba : rectangles_overlap r2 r1 <;> try rfl
  · have h1 := (rectangles_overlap_false_iff r1 r2).mp hab
    have h2 : rectangles_overlap r2 r1 = false :=
      (rectangles_overlap_false_iff r2 r1).mpr (by omega)
    rw [h2] at hba
    exact absurd hba (by decide)
  · have h1 := (rectangles_overlap_false_iff r2 r1).mp hba
    have h2 : rectangles_overlap r1 r2 = false :=
      (rectangles_overlap_false_iff r1 r2).mpr (by omega)
    rw [h2] at hab
    exact absurd hab (by decide)

/-- Claim C5: the rectangle-overlap predicate is a pure total function,
symmetric in its arguments, and returns `false` exactly when the rectangles
are disjoint along some axis under half-open semantics; rectangles that only
share an edge, such as (0,0,10,10) and (10,0,20,10), do not overlap. -/
theorem rectangles_overlap_props :
    ∀ a b : Rect,
      rectangles_overlap a b = rectangles_overlap b a ∧
      (rectangles_overlap a b = false ↔
        (a.right ≤ b.left ∨ a.left ≥ b.right ∨ a.bottom ≤ b.top ∨ a.top ≥ b.bottom)) ∧
      rectangles_overlap ⟨0, 0, 10, 10⟩ ⟨10, 0, 20, 10⟩ = false := by
  intro a b
  exact ⟨rectangles_overlap_comm a b, rectangles_overlap_false_iff a b, by decide⟩

/-- Claim C10: with no calculated sticker zone (`inner_rect = None`) the
validator accepts every candidate against every placed list, for every
configuration — including configurations with `overlap_allowed = false`;
every check is bypassed. -/
theorem is_position_valid_without_zone :
    ∀ (cfg : FrameConfig) (sc : StickerConfig) (placed : List StickerConfig),
      is_position_valid cfg none sc placed = true :=
  fun _ _ _ => rfl

/-- Claim C3: with a computed inner keep-out rectangle, a positively sized
footprint fully contained in it is rejected, and a footprint overlapping it
without being fully contained is accepted provided the boundary-excursion
check and the mutual-overlap check pass. -/
theorem is_position_valid_containment_rule
    (cfg : FrameConfig) (ir : Rect) (sc : StickerConfig) (placed : List StickerConfig)
    (tw th : Int) (hT : cfg.template_size = some (tw, th))
    (hw : 0 < sc.size.1) (hh : 0 < sc.size.2) :
    (sc.position.1 ≥ ir.left ∧ sc.position.1 + sc.size.1 ≤ ir.right ∧
     sc.position.2 ≥ ir.top ∧ sc.position.2 + sc.size.2 ≤ ir.bottom →
       is_position_valid cfg (some ir) sc placed = false) ∧
    (rectangles_overlap (footprint_rect sc) ir = true ∧
     ¬(sc.position.1 ≥ ir.left ∧ sc.position.1 + sc.size.1 ≤ ir.right ∧
       sc.position.2 ≥ ir.top ∧ sc.position.2 + sc.size.2 ≤ ir.bottom) →
     -cfg.border_overlap ≤ sc.position.1 + sc.size.1 ∧
       sc.position.1 ≤ tw + cfg.border_overlap ∧
       -cfg.border_overlap ≤ sc.position.2 + sc.size.2 ∧
       sc.position.2 ≤ th + cfg.border_overlap →
     (cfg.overlap_allowed = true ∨
      ∀ p ∈ placed, rectangles_overlap (footprint_rect sc) (footprint_rect p) = false) →
       is_position_valid cfg (some ir) sc placed = true) := by
  constructor
  · intro hcont
    have hovl : rectangles_overlap (footprint_rect sc) ir = true := by
      rcases hb : rectangles_overlap (footprint_rect sc) ir
      · exfalso
        have := (rectangles_overlap_false_iff (footprint_rect sc) ir).mp hb
        simp only [footprint_rect] at this
        omega
      · rfl
    simp only [is_position_valid, hT]
    split_ifs with h1 h2 h3 h4 <;> try rfl
    exact absurd ⟨hovl, hcont⟩ h3
  · intro hstraddle hexc hmut
    simp only [is_position_valid, hT]
    split_ifs with h1 h2 h3 h4 <;> try rfl
    · exfalso; omega
    · exfalso; omega
    · exact absurd h3.2 hstraddle.2
    · rcases hmut with hall | hdisj
      · rw [hall] at h4
        exact absurd h4.1 (by decide)
      · obtain ⟨x, hx, hxov⟩ := List.any_eq_true.mp h4.2
        have := hdisj x hx
        simp only [this] at hxov
        exact absurd hxov (by decide)

/-- Claim C3, instantiated: on `cfgA` with the zone (10,10,90,90), a 40 x 40
footprint at (20,20) — fully inside the keep-out zone — is rejected. -/
theorem is_position_valid_containment_rule_witness :
    is_position_valid cfgA (some ⟨10, 10, 90, 90⟩)
      ⟨"", (40, 40), (20, 20), Frac.ofInt 0, Frac.ofInt 1⟩ [] = false :=
  (is_position_valid_containment_rule cfgA ⟨10, 10, 90, 90⟩
      ⟨"", (40, 40), (20, 20), Frac.ofInt 0, Frac.ofInt 1⟩ [] 100 100 rfl
      (by decide) (by decide)).1 (by decide)

/-- Claim C4: for templates at least 21 x 21 and any border width at least 1
the zone calculator (fallback branch included) produces an inner rectangle
with positive width and positive height. -/
theorem calculate_sticker_zone_nondegenerate
    (cfg : FrameConfig) (oldRect : Option Rect) (oldPos : List (Int × Int)) (s : Rand)
    (tw th : Int) (hT : cfg.template_size = some (tw, th))
    (htw : 21 ≤ tw) (hth : 21 ≤ th) (hb : 1 ≤ cfg.border_width) :
    ∃ r : Rect, (calculate_sticker_zone cfg oldRect oldPos s).1 = some r ∧
      0 < r.right - r.left ∧ 0 < r.bottom - r.top := by
  simp only [calculate_sticker_zone, hT]
  split_ifs with h
  · refine ⟨_, rfl, ?_, ?_⟩
    · dsimp only
      have h10 : (10 : Int) ≤ max 10 (tw - 20) := le_max_left _ _
      omega
    · dsimp only
      have h10 : (10 : Int) ≤ max 10 (th - 20) := le_max_left _ _
      omega
  · push_neg at h
    refine ⟨_, rfl, ?_, ?_⟩ <;> dsimp only <;> omega

/-- Claim C4, instantiated at `cfgA` (100 x 100 template, border 50, which
takes the fallback branch). -/
theorem calculate_sticker_zone_nondegenerate_witness :
    ∃ r : Rect, (calculate_sticker_zone cfgA none [] []).1 = some r ∧
      0 < r.right - r.left ∧ 0 < r.bottom - r.top :=
  calculate_sticker_zone_nondegenerate cfgA none [] [] 100 100 rfl
    (by decide) (by decide) (by decide)

/-- Claim C6: with no loaded source images, or with an unset template size,
`generate` returns `none` for every configuration, state and attempt
budget — never an empty-but-successful result. -/
theorem generate_returns_none_without_sources
    (cfg : FrameConfig) (loaded : List (Int × Int)) (inner_rect : Option Rect)
    (positions : List (Int × Int)) (sqrtA : Frac → Frac) (max_attempts : Nat) (s : Rand)
    (h : loaded = [] ∨ cfg.template_size = none) :
    generate cfg loaded inner_rect positions sqrtA max_attempts s = none := by
  rcases h with h | h <;> simp [generate, h]

/-- Claim C6, instantiated: an empty loaded-image list yields `none`. -/
theorem generate_returns_none_without_sources_witness :
    generate cfgA [] none [] (fun q => q) 500 [] = none :=
  generate_returns_none_without_sources cfgA [] none [] (fun q => q) 500 [] (Or.inl rfl)

theorem repRand_length {α : Type} (f : Rand → α × Rand) :
    ∀ (n : Nat) (s : Rand), ((repRand f n s).1).length = n := by
  intro n
  induction n with
  | zero => intro s; rfl
  | succ n ih => intro s; simp only [repRand, List.length_cons, ih]

theorem repRand_mem {α : Type} (f : Rand → α × Rand) :
    ∀ (n : Nat) (s : Rand) (a : α), a ∈ (repRand f n s).1 → ∃ t, a = (f t).1 := by
  intro n
  induction n with
  | zero => intro s a ha; exact absurd ha (List.not_mem_nil a)
  | succ n ih =>
    intro s a ha
    simp only [repRand] at ha
    rcases List.mem_cons.mp ha with h | h
    · exact ⟨s, h⟩
    · exact ih _ a h

theorem flatten_length_le {α : Type} (L : List (List α)) (k : Nat)
    (h : ∀ x ∈ L, x.length ≤ k) : L.flatten.length ≤ L.length * k := by
  induction L with
  | nil => simp
  | cons x L ih =>
    have h1 := h x (List.mem_cons_self x L)
    have h2 := ih (fun y hy => h y (List.mem_cons_of_mem x hy))
    simp only [List.flatten_cons, List.length_append, List.length_cons]
    rw [Nat.succ_mul]
    omega

theorem corner_side_top_length (sides : ActiveSides) (tw border overlap : Int) (s : Rand) :
    ((corner_side_top sides tw border overlap s).1).length ≤ if sides.top then 1 else 0 := by
  simp only [corner_side_top]
  split_ifs <;> simp

theorem corner_side_bottom_length (sides : ActiveSides) (tw th border overlap : Int) (s : Rand) :
    ((corner_side_bottom sides tw th border overlap s).1).length ≤ if sides.bottom then 1 else 0 := by
  simp only [corner_side_bottom]
  split_ifs <;> simp

theorem corner_side_left_length (sides : ActiveSides) (th border overlap : Int) (s : Rand) :
    ((corner_side_left sides th border overlap s).1).length ≤ if sides.left then 1 else 0 := by
  simp only [corner_side_left]
  split_ifs <;> simp

theorem corner_side_right_length (sides : ActiveSides) (tw th border overlap : Int) (s : Rand) :
    ((corner_side_right sides tw th border overlap s).1).length ≤ if sides.right then 1 else 0 := by
  simp only [corner_side_right]
  split_ifs <;> simp

/-- One side round of the corner algorithm emits at most one position per
active plain edge. -/
theorem corner_side_round_length_le (sides : ActiveSides) (tw th border overlap : Int)
    (s : Rand) :
    ((corner_side_round sides tw th border overlap s).1).length ≤ active_edge_count sides := by
  have h1 := corner_side_top_length sides tw border overlap s
  have h2 := corner_side_bottom_length sides tw th border overlap
    (corner_side_top sides tw border overlap s).2
  have h3 := corner_side_left_length sides th border overlap
    (corner_side_bottom sides tw th border overlap (corner_side_top sides tw border overlap s).2).2
  have h4 := corner_side_right_length sides tw th border overlap
    (corner_side_left sides th border overlap
      (corner_side_bottom sides tw th border overlap
        (corner_side_top sides tw border overlap s).2).2).2
  simp only [corner_side_round, List.length_append, active_edge_count]
  omega

/-- Every position emitted by the corner loop body is offset outward from
one of the four template corners, by a common nonnegative offset. -/
theorem corner_pick_shape (tw th cs : Int) (s : Rand) (hcs : 0 ≤ cs) :
    ∃ d : Int, 0 ≤ d ∧
      ((corner_pick tw th cs s).1 = (-d, -d) ∨ (corner_pick tw th cs s).1 = (tw + d, -d) ∨
       (corner_pick tw th cs s).1 = (-d, th + d) ∨ (corner_pick tw th cs s).1 = (tw + d, th + d)) := by
  have hoff : ∀ x : Frac, 0 ≤ pyTrunc (Frac.ofInt cs * (x * x)) := by
    intro x
    simp only [pyTrunc, Frac.mul_num, Frac.mul_den, Frac.ofInt]
    exact Int.tdiv_nonneg (mul_nonneg hcs (mul_self_nonneg _))
      (mul_nonneg (by norm_num) (mul_self_nonneg _))
  simp only [corner_pick]
  split_ifs
  · exact ⟨_, hoff _, Or.inl rfl⟩
  · exact ⟨_, hoff _, Or.inr (Or.inl rfl)⟩
  · exact ⟨_, hoff _, Or.inr (Or.inr (Or.inl rfl))⟩
  · exact ⟨_, hoff _, Or.inr (Or.inr (Or.inr rfl))⟩

set_option maxRecDepth 100000 in
/-- Claim C8, refuted: on a template with the top side active, a concrete
random stream in which every 25% edge roll fails makes the CORNER variant
emit 140 candidate positions, not a fixed total of 200. -/
theorem corner_positions_total_refuted :
    ((corner_generate_positions cfgC [] sC).1).length = 140 ∧
    ((corner_generate_positions cfgC [] sC).1).length ≠ 200 := by
  exact ⟨by decide, by decide⟩

/-- Claim C8, amended: the CORNER variant always emits exactly 140
corner-biased positions, followed by 60 side rounds that each emit at most
one position per active plain edge; the total is therefore between 140 and
140 + 60 * (number of active edges), not a fixed 200. -/
theorem corner_positions_count_bounds
    (cfg : FrameConfig) (old : List (Int × Int)) (s : Rand) (tw th : Int)
    (hT : cfg.template_size = some (tw, th)) :
    140 ≤ ((corner_generate_positions cfg old s).1).length ∧
    ((corner_generate_positions cfg old s).1).length ≤
      140 + 60 * active_edge_count (get_active_sides cfg.border_sides) := by
  simp only [corner_generate_positions, hT]
  rw [List.length_append, repRand_length]
  constructor
  · omega
  · have hlen : ((repRand (corner_side_round (get_active_sides cfg.border_sides) tw th
        cfg.border_width cfg.border_overlap) (200 - 140)
        ((repRand (corner_pick tw th (cfg.border_width + cfg.border_overlap)) 140 s).2)).1).length
        = 60 := repRand_length _ _ _
    have hbound : ∀ x ∈ (repRand (corner_side_round (get_active_sides cfg.border_sides) tw th
        cfg.border_width cfg.border_overlap) (200 - 140)
        ((repRand (corner_pick tw th (cfg.border_width + cfg.border_overlap)) 140 s).2)).1,
        x.length ≤ active_edge_count (get_active_sides cfg.border_sides) := by
      intro x hx
      obtain ⟨t, ht⟩ := repRand_mem _ _ _ x hx
      rw [ht]
      exact corner_side_round_length_le _ _ _ _ _ _
    have := flatten_length_le _ _ hbound
    rw [hlen] at this
    omega

/-- Claim C8 (amended), instantiated at `cfgC` and the all-halves stream. -/
theorem corner_positions_count_bounds_witness :
    140 ≤ ((corner_generate_positions cfgC [] sC).1).length ∧
    ((corner_generate_positions cfgC [] sC).1).length ≤
      140 + 60 * active_edge_count (get_active_sides cfgC.border_sides) :=
  corner_positions_count_bounds cfgC [] sC 100 100 rfl

/-- Claim C9: for every border-side setting the CORNER variant emits the
same initial 140 corner-biased positions from the same stream (the corner
loop never consults the active sides), the emitted list always has at least
those 140 entries, and each of them is offset outward (by a common
nonnegative offset) from one of the four template corners. -/
theorem corner_positions_unconditional
    (cfg : FrameConfig) (bs : BorderSide) (oldA oldB : List (Int × Int)) (s : Rand)
    (tw th : Int) (hT : cfg.template_size = some (tw, th))
    (hcs : 0 ≤ cfg.border_width + cfg.border_overlap) :
    ((corner_generate_positions cfg oldA s).1).take 140 =
      ((corner_generate_positions { cfg with border_sides := bs } oldB s).1).take 140 ∧
    140 ≤ ((corner_generate_positions cfg oldA s).1).length ∧
    ∀ p ∈ ((corner_generate_positions cfg oldA s).1).take 140, ∃ d : Int, 0 ≤ d ∧
      (p = (-d, -d) ∨ p = (tw + d, -d) ∨ p = (-d, th + d) ∨ p = (tw + d, th + d)) := by
  have hT2 : ({ cfg with border_sides := bs } : FrameConfig).template_size = some (tw, th) := hT
  simp only [corner_generate_positions, hT, hT2]
  have hlen : ((repRand (corner_pick tw th (cfg.border_width + cfg.border_overlap)) 140 s).1).length
      = 140 := repRand_length _ _ _
  have htake : ∀ C : List (Int × Int),
      (((repRand (corner_pick tw th (cfg.border_width + cfg.border_overlap)) 140 s).1) ++ C).take 140
        = (repRand (corner_pick tw th (cfg.border_width + cfg.border_overlap)) 140 s).1 := by
    intro C
    rw [← hlen]
    exact List.take_left _ C
  rw [htake, htake]
  refine ⟨rfl, ?_, ?_⟩
  · rw [List.length_append, hlen]
    omega
  · intro p hp
    obtain ⟨t, ht⟩ := repRand_mem _ _ _ p hp
    rw [ht]
    exact corner_pick_shape tw th _ t hcs

/-- Claim C9, instantiated at `cfgC` (top side only) against
`BorderSide.ALL`, with the empty stream. -/
theorem corner_positions_unconditional_witness :
    ((corner_generate_positions cfgC [] []).1).take 140 =
      ((corner_generate_positions { cfgC with border_sides := BorderSide.ALL } [] []).1).take 140 ∧
    140 ≤ ((corner_generate_positions cfgC [] []).1).length ∧
    ∀ p ∈ ((corner_generate_positions cfgC [] []).1).take 140, ∃ d : Int, 0 ≤ d ∧
      (p = (-d, -d) ∨ p = (100 + d, -d) ∨ p = (-d, 100 + d) ∨ p = (100 + d, 100 + d)) :=
  corner_positions_unconditional cfgC BorderSide.ALL [] [] [] 100 100 rfl (by decide)

/-- A validated sticker footprint is never entirely beyond the allowed
border-overlap excursion on either axis (the first two rejection tests of
`_is_position_valid`, negated). -/
theorem is_position_valid_bounds (cfg : FrameConfig) (ir : Rect) (sc : StickerConfig)
    (placed : List StickerConfig) (tw th : Int)
    (hT : cfg.template_size = some (tw, th))
    (h : is_position_valid cfg (some ir) sc placed = true) :
    -cfg.border_overlap ≤ sc.position.1 + sc.size.1 ∧
    sc.position.1 ≤ tw + cfg.border_overlap ∧
    -cfg.border_overlap ≤ sc.position.2 + sc.size.2 ∧
    sc.position.2 ≤ th + cfg.border_overlap := by
  simp only [is_position_valid, hT] at h
  split_ifs at h with h1 h2 h3 h4
  refine ⟨?_, ?_, ?_, ?_⟩ <;> omega

/-- With mutual overlap disallowed, a validated sticker footprint overlaps
none of the already-placed footprints. -/
theorem is_position_valid_disjoint (cfg : FrameConfig) (ir : Rect) (sc : StickerConfig)
    (placed : List StickerConfig) (hov : cfg.overlap_allowed = false)
    (h : is_position_valid cfg (some ir) sc placed = true) :
    ∀ p ∈ placed, rectangles_overlap (footprint_rect sc) (footprint_rect p) = false := by
  intro p hp
  cases hT : cfg.template_size with
  | none =>
    simp only [is_position_valid, hT] at h
    exact absurd h (by decide)
  | some wh =>
    obtain ⟨tw, th⟩ := wh
    simp only [is_position_valid, hT] at h
    split_ifs at h with h1 h2 h3 h4
    have hAny : placed.any
        (fun q => rectangles_overlap (footprint_rect sc) (footprint_rect q)) = false := by
      rcases hA : placed.any (fun q => rectangles_overlap (footprint_rect sc) (footprint_rect q))
      · rfl
      · exact absurd ⟨hov, hA⟩ h4
    rcases hb : rectangles_overlap (footprint_rect sc) (footprint_rect p)
    · rfl
    · exact absurd hb (List.any_eq_false.mp hAny p hp)

/-- Every sticker in the output of the inner position search was already in
the input list or passed the validator against some intermediate list. -/
theorem try_place_mem (cfg : FrameConfig) (ir : Option Rect) (positions : List (Int × Int))
    (sqrtA : Frac → Frac) (width height : Int) (ro op : Frac) :
    ∀ (n : Nat) (placed : List StickerConfig) (s : Rand) (a : StickerConfig),
      a ∈ (try_place cfg ir positions sqrtA width height ro op n placed s).2.1 →
      a ∈ placed ∨ ∃ q, is_position_valid cfg ir a q = true := by
  intro n
  induction n with
  | zero => intro placed s a ha; exact Or.inl ha
  | succ n ih =>
    intro placed s a ha
    simp only [try_place] at ha
    split at ha
    · exact Or.inl ha
    · split at ha
      · exact ih placed _ a ha
      · split at ha
        next hvalid =>
          replace ha : a ∈ placed ++ [⟨"", (width, height),
              (choiceD positions (0, 0) s).1, ro, op⟩] := ha
          rcases List.mem_append.mp ha with hmem | hmem
          · exact Or.inl hmem
          · rw [List.mem_singleton] at hmem
            subst hmem
            exact Or.inr ⟨placed, hvalid⟩
        next => exact ih placed _ a ha

/-- Every sticker in the output of the attempt loop was already in the input
list or passed the validator against some intermediate list. -/
theorem generate_loop_mem (cfg : FrameConfig) (loaded : List (Int × Int)) (ir : Option Rect)
    (positions : List (Int × Int)) (sqrtA : Frac → Frac) :
    ∀ (n : Nat) (placed : List StickerConfig) (s : Rand) (a : StickerConfig),
      a ∈ (generate_loop cfg loaded ir positions sqrtA n placed s).1 →
      a ∈ placed ∨ ∃ q, is_position_valid cfg ir a q = true := by
  intro n
  induction n with
  | zero => intro placed s a ha; exact Or.inl ha
  | succ n ih =>
    intro placed s a ha
    simp only [generate_loop] at ha
    repeat' split at ha
    all_goals first
      | exact try_place_mem cfg ir positions sqrtA _ _ _ _ 10 placed _ a ha
      | (rcases ih _ _ a ha with h | h
         · exact try_place_mem cfg ir positions sqrtA _ _ _ _ 10 placed _ a h
         · exact Or.inr h)

/-- With mutual overlap disallowed, the inner position search preserves
pairwise non-overlap of the placed list. -/
theorem try_place_pairwise (cfg : FrameConfig) (r : Rect) (positions : List (Int × Int))
    (sqrtA : Frac → Frac) (width height : Int) (ro op : Frac)
    (hov : cfg.overlap_allowed = false) :
    ∀ (n : Nat) (placed : List StickerConfig) (s : Rand), NonOverlapList placed →
      NonOverlapList (try_place cfg (some r) positions sqrtA width height ro op n placed s).2.1 := by
  intro n
  induction n with
  | zero => intro placed s hP; exact hP
  | succ n ih =>
    intro placed s hP
    simp only [try_place]
    split
    · exact hP
    · split
      · exact ih _ _ hP
      · split
        next hvalid =>
          show NonOverlapList (placed ++ [⟨"", (width, height),
            (choiceD positions (0, 0) s).1, ro, op⟩])
          refine List.pairwise_append.mpr ⟨hP, List.pairwise_singleton _ _, ?_⟩
          intro a ha b hb
          rw [List.mem_singleton] at hb
          subst hb
          have hd := is_position_valid_disjoint cfg r _ placed hov hvalid a ha
          rw [rectangles_overlap_comm]
          exact hd
        next => exact ih _ _ hP

/-- With mutual overlap disallowed, the attempt loop preserves pairwise
non-overlap of the placed list. -/
theorem generate_loop_pairwise (cfg : FrameConfig) (loaded : List (Int × Int)) (r : Rect)
    (positions : List (Int × Int)) (sqrtA : Frac → Frac)
    (hov : cfg.overlap_allowed = false) :
    ∀ (n : Nat) (placed : List StickerConfig) (s : Rand), NonOverlapList placed →
      NonOverlapList (generate_loop cfg loaded (some r) positions sqrtA n placed s).1 := by
  intro n
  induction n with
  | zero => intro placed s hP; exact hP
  | succ n ih =>
    intro placed s hP
    simp only [generate_loop]
    repeat' split
    all_goals first
      | exact try_place_pairwise cfg r positions sqrtA _ _ _ _ hov 10 placed _ hP
      | exact ih _ _ (try_place_pairwise cfg r positions sqrtA _ _ _ _ hov 10 placed _ hP)

/-- A successful run of the class always comes from the attempt loop with a
calculated (`some`) inner keep-out rectangle and the empty starting list. -/
theorem run_generator_some (cfg : FrameConfig) (imgs : List (Int × Int)) (sqrtA : Frac → Frac)
    (n : Nat) (s : Rand) (l : List StickerConfig)
    (hrun : run_generator cfg imgs sqrtA n s = some l) :
    ∃ (r : Rect) (ps : List (Int × Int)) (t : Rand),
      (calculate_sticker_zone cfg none [] s).1 = some r ∧
      l = (generate_loop cfg imgs (some r) ps sqrtA n [] t).1 := by
  by_cases hdir : cfg.sticker_dir = ""
  · exfalso
    simp [run_generator, generator_init, hdir, generate] at hrun
  · cases hT : cfg.template_size with
    | none =>
      exfalso
      simp [run_generator, generator_init, hdir, generate, hT] at hrun
    | some wh =>
      obtain ⟨tw, th⟩ := wh
      by_cases hemp : imgs.isEmpty
      · exfalso
        simp [run_generator, generator_init, hdir, generate, hemp] at hrun
      · have hz : ∃ r, (calculate_sticker_zone cfg none [] s).1 = some r := by
          simp only [calculate_sticker_zone, hT]
          split_ifs
          · exact ⟨_, rfl⟩
          · exact ⟨_, rfl⟩
        obtain ⟨r, hr⟩ := hz
        rw [run_generator, generator_init, if_neg hdir] at hrun
        simp only [generate] at hrun
        rw [if_neg (by simp [hemp, hT])] at hrun
        rw [hr] at hrun
        exact ⟨r, _, _, hr, (Option.some.inj hrun).symm⟩

/-- Claim C1, refuted: a completed run on `cfgA` (template 100 x 100,
overlap 0) accepts a 40 x 40 sticker anchored at x = 95, whose footprint
extends to x + w = 135, more than `border_overlap` beyond the right edge;
the code only rejects footprints lying entirely beyond the excursion band. -/
theorem generate_excursion_claim_refuted :
    run_generator cfgA [ (40, 40) ] (fun q => q) 1 sA =
      some [ ⟨"", (40, 40), (95, 0), Frac.ofInt 0, Frac.ofInt 1⟩ ] ∧
    ¬ ((95 : Int) + 40 ≤ 100 + cfgA.border_overlap) := by
  exact ⟨by decide, by decide⟩

/-- Claim C1, amended: in every completed run, every placed footprint is not
entirely beyond `border_overlap` outside the template on either axis:
`x + w ≥ -overlap`, `x ≤ width + overlap`, `y + h ≥ -overlap` and
`y ≤ height + overlap` (the anchor, not the far edge, is bounded on the
high side, and the far edge, not the anchor, on the low side). -/
theorem generate_excursion_bound (cfg : FrameConfig) (imgs : List (Int × Int))
    (sqrtA : Frac → Frac) (n : Nat) (s : Rand) (l : List StickerConfig) (tw th : Int)
    (hT : cfg.template_size = some (tw, th))
    (hrun : run_generator cfg imgs sqrtA n s = some l) :
    ∀ sc ∈ l, -cfg.border_overlap ≤ sc.position.1 + sc.size.1 ∧
      sc.position.1 ≤ tw + cfg.border_overlap ∧
      -cfg.border_overlap ≤ sc.position.2 + sc.size.2 ∧
      sc.position.2 ≤ th + cfg.border_overlap := by
  obtain ⟨r, ps, t, hr, hl⟩ := run_generator_some cfg imgs sqrtA n s l hrun
  intro sc hsc
  rw [hl] at hsc
  rcases generate_loop_mem cfg imgs (some r) ps sqrtA n [] t sc hsc with h | ⟨q, hq⟩
  · exact absurd h (List.not_mem_nil sc)
  · exact is_position_valid_bounds cfg r sc q tw th hT hq

/-- Claim C1 (amended), instantiated on the `cfgA` run: the sticker placed
at (95, 0) satisfies the four excursion bounds of the code. -/
theorem generate_excursion_bound_witness :
    -cfgA.border_overlap ≤ 95 + 40 ∧ (95 : Int) ≤ 100 + cfgA.border_overlap ∧
    -cfgA.border_overlap ≤ 0 + 40 ∧ (0 : Int) ≤ 100 + cfgA.border_overlap :=
  generate_excursion_bound cfgA [ (40, 40) ] (fun q => q) 1 sA
    [ ⟨"", (40, 40), (95, 0), Frac.ofInt 0, Frac.ofInt 1⟩ ] 100 100 rfl (by decide)
    ⟨"", (40, 40), (95, 0), Frac.ofInt 0, Frac.ofInt 1⟩ (List.mem_singleton.mpr rfl)

/-- Claim C2: with `overlap_allowed = false`, any two stickers at distinct
indices of the final placed list of a completed run have non-overlapping
footprints. -/
theorem generate_disjoint_when_overlap_disallowed (cfg : FrameConfig)
    (imgs : List (Int × Int)) (sqrtA : Frac → Frac) (n : Nat) (s : Rand)
    (l : List StickerConfig) (hov : cfg.overlap_allowed = false)
    (hrun : run_generator cfg imgs sqrtA n s = some l) :
    ∀ i j : Fin l.length, i ≠ j →
      rectangles_overlap (footprint_rect (l.get i)) (footprint_rect (l.get j)) = false := by
  obtain ⟨r, ps, t, hr, hl⟩ := run_generator_some cfg imgs sqrtA n s l hrun
  have hNO : NonOverlapList l := by
    rw [hl]
    exact generate_loop_pairwise cfg imgs r ps sqrtA hov n [] t List.Pairwise.nil
  intro i j hij
  rcases Ne.lt_or_lt hij with h | h
  · exact List.pairwise_iff_get.mp hNO i j h
  · rw [rectangles_overlap_comm]
    exact List.pairwise_iff_get.mp hNO j i h

/-- Claim C2, instantiated: the two stickers of the `cfgB` run (anchored at
(0,0) and (50,0), each 40 x 40) do not overlap. -/
theorem generate_disjoint_when_overlap_disallowed_witness :
    rectangles_overlap
      (footprint_rect ⟨"", (40, 40), (0, 0), Frac.ofInt 0, Frac.ofInt 1⟩)
      (footprint_rect ⟨"", (40, 40), (50, 0), Frac.ofInt 0, Frac.ofInt 1⟩) = false :=
  generate_disjoint_when_overlap_disallowed cfgB [ (40, 40) ] (fun q => q) 2 sB
    [ ⟨"", (40, 40), (0, 0), Frac.ofInt 0, Frac.ofInt 1⟩,
      ⟨"", (40, 40), (50, 0), Frac.ofInt 0, Frac.ofInt 1⟩ ] rfl (by decide)
    ⟨0, by decide⟩ ⟨1, by decide⟩ (by decide)

/-- Claim C7 (the half that holds): the run outcome is a function of the
configuration, the source images and the random stream alone — two runs
from the same global random state on the same inputs produce the same
placed list.  (The source draws that stream from the global `random`
module; it offers no injectable random source.) -/
theorem run_generator_deterministic (cfg : FrameConfig) (imgs : List (Int × Int))
    (sqrtA : Frac → Frac) (n : Nat) (s1 s2 : Rand) (h : s1 = s2) :
    run_generator cfg imgs sqrtA n s1 = run_generator cfg imgs sqrtA n s2 := by
  rw [h]

/-- Claim C7, instantiated on the `cfgA` run. -/
theorem run_generator_deterministic_witness :
    run_generator cfgA [ (40, 40) ] (fun q => q) 1 sA =
      run_generator cfgA [ (40, 40) ] (fun q => q) 1 sA :=
  run_generator_deterministic cfgA [ (40, 40) ] (fun q => q) 1 sA sA rfl

end FotoRamka
